import Mathlib

/-!
Shallow embedding of chainclient.py, a client-side object model for
HAL+JSON documents. Python dictionaries are modelled as association
lists (JSON decoding deduplicates keys, so lists are duplicate-free in
practice and first-match lookup coincides with dict lookup). Python
exception classes are modelled by the ChErr enumeration: the code
signals each specification-level error with a distinct exception class
(ConnectionError, ChainException for HTTP status >= 400, ValueError for
a link missing href, KeyError for an unknown relation, AttributeError
for a missing capability). The HTTP layer (requests.get / requests.post
plus JSON decoding of the body) is abstracted as a Transport; each
operation returns, besides its result and updated state, the list of
network requests it issued.
-/

namespace Chainclient

/-- Decoded JSON values. -/
inductive JSON where
  | null
  | bool (b : Bool)
  | num (n : Int)
  | str (s : String)
  | arr (items : List JSON)
  | obj (fields : List (String × JSON))

/-- Python exception classes raised by chainclient code paths. -/
inductive ChErr where
  | connectionError
  | chainException (body : String)
  | valueError
  | keyError (key : String)
  | attributeError
  | typeError
  | indexError

/-- Result of one HTTP request, with the body already JSON-decoded. -/
inductive FetchResult where
  | connFail
  | httpError (body : String)
  | ok (body : JSON)

/-- The network collaborator: responses for GET and POST requests. -/
structure Transport where
  getResp : JSON → FetchResult
  postResp : JSON → JSON → FetchResult

/-- A network request issued by the client. -/
inductive Req where
  | get (href : JSON)
  | post (href : JSON) (body : JSON)

/-- First-match lookup in an association list (Python dict lookup). -/
def lookupStr {α : Type} : List (String × α) → String → Option α
  | [], _ => none
  | (k', v) :: rest, k => if k' = k then some v else lookupStr rest k

/-- Update or insert a key (Python dict item assignment). -/
def setEntry {α : Type} : List (String × α) → String → α → List (String × α)
  | [], k, v => [(k, v)]
  | (k', v') :: rest, k, v =>
    if k' = k then (k, v) :: rest else (k', v') :: setEntry rest k v

/-- Python membership test on a dict. -/
def containsKey {α : Type} (xs : List (String × α)) (k : String) : Bool :=
  (lookupStr xs k).isSome

/-- HALLink: an AttrDict of the link object fields; construction
enforces the presence of the href field. -/
structure HALLink where
  fields : List (String × JSON)

/-- HALLink.init: raises ValueError when href is missing. -/
def HALLink.make (fs : List (String × JSON)) : Except ChErr HALLink :=
  if containsKey fs "href" then .ok ⟨fs⟩ else .error .valueError

/-- Attribute access link.href; the constructor guarantees presence, so
the default branch is unreachable on constructed links. -/
def HALLink.href (l : HALLink) : JSON :=
  (lookupStr l.fields "href").getD .null

/-- A value of the parsed links table: one link or a list of links,
mirroring the single/list branch of HALDoc.init. -/
inductive LinkVal where
  | single (l : HALLink)
  | list (ls : List HALLink)

mutual
/-- A HAL resource: the raw dict entries, the parsed links table and
the embedded cache (which the constructor leaves empty: the code never
reads a top-level embedded key of the source document). -/
inductive HALDoc where
  | mk (fields : List (String × JSON)) (links : List (String × LinkVal))
      (embedded : List (String × EmbVal))

/-- A value cached in a resource's embedded table. -/
inductive EmbVal where
  | doc (d : HALDoc)
  | rlist (r : RelList)

/-- RelList: the backing list of a list-valued relation plus the
optional next-page href value. -/
inductive RelList where
  | mk (rels : List RelItem) (nextLink : Option JSON)

/-- An element of a RelList: an unresolved link, a resolved resource,
or a stray string key (list.extend over a dict iterates its keys). -/
inductive RelItem where
  | link (l : HALLink)
  | doc (d : HALDoc)
  | pykey (s : String)
end

def HALDoc.fields : HALDoc → List (String × JSON)
  | .mk f _ _ => f

def HALDoc.links : HALDoc → List (String × LinkVal)
  | .mk _ l _ => l

def HALDoc.embedded : HALDoc → List (String × EmbVal)
  | .mk _ _ e => e

def HALDoc.setEmbedded : HALDoc → String → EmbVal → HALDoc
  | .mk f l e, k, v => .mk f l (setEntry e k v)

def RelList.rels : RelList → List RelItem
  | .mk rs _ => rs

def RelList.nextLink : RelList → Option JSON
  | .mk _ n => n

def RelList.length (r : RelList) : Nat :=
  r.rels.length

/-- RelList.append. -/
def RelList.append (r : RelList) (item : RelItem) : RelList :=
  .mk (r.rels ++ [item]) r.nextLink

/-- RelList.has-next-page. -/
def RelList.hasNextPage (r : RelList) : Bool :=
  r.nextLink.isSome

/-- One item of a links table entry: HALLink on a JSON object, else the
TypeError that AttrDict raises on a non-dict argument. -/
def parseLinkItem : JSON → Except ChErr HALLink
  | .obj f => HALLink.make f
  | _ => .error .typeError

/-- The list branch of HALDoc.init: links built one by one, the first
failure propagating. -/
def parseLinkList : List JSON → Except ChErr (List HALLink)
  | [] => .ok []
  | x :: rest =>
    match parseLinkItem x with
    | .error e => .error e
    | .ok l =>
      match parseLinkList rest with
      | .error e => .error e
      | .ok tl => .ok (l :: tl)

/-- One entry of the _links object: a list is parsed element-wise,
anything else goes through HALLink directly. -/
def parseLinkVal : JSON → Except ChErr LinkVal
  | .arr items => (parseLinkList items).map .list
  | v => (parseLinkItem v).map .single

/-- The iteration over _links entries in HALDoc.init. -/
def parseLinks : List (String × JSON) → Except ChErr (List (String × LinkVal))
  | [] => .ok []
  | (r, v) :: rest =>
    match parseLinkVal v with
    | .error e => .error e
    | .ok lv =>
      match parseLinks rest with
      | .error e => .error e
      | .ok tl => .ok ((r, lv) :: tl)

/-- HALDoc.init on a decoded JSON value: the raw dict is kept as
fields, a present _links object is parsed into the links table, and the
embedded cache starts empty. The constructor does not read the
document's top-level embedded key. A non-object argument fails in the
dict constructor; a non-object _links value fails looking up iteritems
on it. -/
def HALDoc.make : JSON → Except ChErr HALDoc
  | .obj fs =>
    match lookupStr fs "_links" with
    | none => .ok (.mk fs [] [])
    | some (.obj linkfs) =>
      match parseLinks linkfs with
      | .error e => .error e
      | .ok links => .ok (.mk fs links [])
    | some _ => .error .attributeError
  | _ => .error .typeError

/-- The module-level get function: one GET through the Transport,
connection failures and HTTP status >= 400 mapped to their exception
classes, and the decoded body run through HALDoc.init. The request is
issued (and recorded) whether or not it succeeds. -/
def get (t : Transport) (href : JSON) : Except ChErr HALDoc × List Req :=
  (match t.getResp href with
   | .connFail => .error .connectionError
   | .httpError b => .error (.chainException b)
   | .ok body => HALDoc.make body,
   [.get href])

/-- RelResolver.contains: membership in the embedded cache or the links
table, with no fetch. -/
def RelResolver.contains (d : HALDoc) (key : String) : Bool :=
  containsKey d.embedded key || containsKey d.links key

/-- The next-page href chosen when a list-valued relation is resolved:
only the items relation paginates, and reading href off a list-valued
next link raises AttributeError. -/
def itemsNextLink (links : List (String × LinkVal)) (key : String) :
    Except ChErr (Option JSON) :=
  if key = "items" then
    match lookupStr links "next" with
    | some (.single l) => .ok (some l.href)
    | some (.list _) => .error .attributeError
    | none => .ok none
  else .ok none

/-- RelResolver.getitem: return the cached embedded value if present;
otherwise look the relation up in links (KeyError if absent), build and
cache a RelList for a list-valued relation, or fetch, cache and return
the single resource. Returns the result, the updated resource, and the
requests issued. -/
def RelResolver.getItem (t : Transport) (d : HALDoc) (key : String) :
    (Except ChErr EmbVal × HALDoc) × List Req :=
  match lookupStr d.embedded key with
  | some v => ((.ok v, d), [])
  | none =>
    match lookupStr d.links key with
    | none => ((.error (.keyError key), d), [])
    | some (.list ls) =>
      match itemsNextLink d.links key with
      | .error e => ((.error e, d), [])
      | .ok nextl =>
        let r : RelList := .mk (ls.map RelItem.link) nextl
        ((.ok (.rlist r), d.setEmbedded key (.rlist r)), [])
    | some (.single l) =>
      match get t l.href with
      | (.error e, tr) => ((.error e, d), tr)
      | (.ok res, tr) =>
        ((.ok (.doc res), d.setEmbedded key (.doc res)), tr)

/-- RelList.getitem: a resolved resource is returned as is; a link is
fetched and the slot rewritten with the resource on success, while a
failed fetch leaves the slot untouched. -/
def RelList.getItem (t : Transport) (r : RelList) (idx : Nat) :
    (Except ChErr HALDoc × RelList) × List Req :=
  match r.rels[idx]? with
  | none => ((.error .indexError, r), [])
  | some (.doc d) => ((.ok d, r), [])
  | some (.pykey _) => ((.error .attributeError, r), [])
  | some (.link l) =>
    match get t l.href with
    | (.error e, tr) => ((.error e, r), tr)
    | (.ok res, tr) =>
      ((.ok res, .mk (r.rels.set idx (.doc res)) r.nextLink), tr)

/-- The extend step of get-next-page: list.extend over the items entry
of the fetched page. Extending with a single HALLink iterates the dict,
appending its keys. -/
def extendWith (rs : List RelItem) : LinkVal → List RelItem
  | .list ls => rs ++ ls.map RelItem.link
  | .single l => rs ++ l.fields.map (fun kv => RelItem.pykey kv.1)

/-- RelList.get-next-page: fetch the next-page href, update the next
link from the page (an exception while evaluating the new value leaves
it unchanged), then extend the backing list with the page's items entry
(KeyError after the next link was already updated when the page has no
items). A missing next link makes requests raise before any request is
sent. -/
def RelList.getNextPage (t : Transport) (r : RelList) :
    (Except ChErr Unit × RelList) × List Req :=
  match r.nextLink with
  | none => ((.error .typeError, r), [])
  | some href =>
    match get t href with
    | (.error e, tr) => ((.error e, r), tr)
    | (.ok page, tr) =>
      match itemsNextLink page.links "items" with
      | .error e => ((.error e, r), tr)
      | .ok newNext =>
        match lookupStr page.links "items" with
        | none => ((.error (.keyError "items"), .mk r.rels newNext), tr)
        | some lv => ((.ok (), .mk (extendWith r.rels lv) newNext), tr)

/-- HALDoc.create: POST the payload to the createForm link (a missing
link, or a list-valued one, raises AttributeError before any request),
map transport failures as get does, decode the response into a new
resource, and if an items relation is resolvable append the new
resource to it (resolving it first, which on a cache hit issues no
request; appending to a single resolved resource raises
AttributeError since HALDoc has no append). -/
def HALDoc.create (t : Transport) (d : HALDoc) (payload : JSON) :
    (Except ChErr HALDoc × HALDoc) × List Req :=
  match lookupStr d.links "createForm" with
  | none => ((.error .attributeError, d), [])
  | some (.list _) => ((.error .attributeError, d), [])
  | some (.single l) =>
    match t.postResp l.href payload with
    | .connFail => ((.error .connectionError, d), [.post l.href payload])
    | .httpError b => ((.error (.chainException b), d), [.post l.href payload])
    | .ok body =>
      match HALDoc.make body with
      | .error e => ((.error e, d), [.post l.href payload])
      | .ok newRes =>
        if RelResolver.contains d "items" then
          match RelResolver.getItem t d "items" with
          | ((.error e, d'), tr) =>
            ((.error e, d'), .post l.href payload :: tr)
          | ((.ok (.doc _), d'), tr) =>
            ((.error .attributeError, d'), .post l.href payload :: tr)
          | ((.ok (.rlist rL), d'), tr) =>
            let rL' := rL.append (.doc newRes)
            ((.ok newRes, d'.setEmbedded "items" (.rlist rL')),
             .post l.href payload :: tr)
        else ((.ok newRes, d), [.post l.href payload])

/-- A value bound to a Python attribute of a HALDoc after its
constructor ran: a plain JSON field mirrored by AttrDict, or one of the
three objects the constructor assigns directly. -/
inductive PyAttrVal where
  | json (v : JSON)
  | linksObj (ls : List (String × LinkVal))
  | embeddedObj (es : List (String × EmbVal))
  | resolver

/-- Attribute lookup on a HALDoc as left by its constructor: AttrDict
first binds one attribute per dict key, then the assignments to links,
embedded and rels rebind those three names, shadowing any same-named
JSON field. -/
def HALDoc.getattr (d : HALDoc) (k : String) : Option PyAttrVal :=
  if k = "links" then some (.linksObj d.links)
  else if k = "embedded" then some (.embeddedObj d.embedded)
  else if k = "rels" then some .resolver
  else (lookupStr d.fields k).map .json

/-- A plain AttrDict: the dict entries and the mirrored attribute
table. -/
structure AttrDict where
  entries : List (String × JSON)
  attrs : List (String × JSON)

/-- AttrDict.init: every dict key is also set as an attribute. -/
def AttrDict.init (xs : List (String × JSON)) : AttrDict :=
  ⟨xs, xs⟩

/-- AttrDict.setitem: item assignment updates the dict and mirrors the
value onto the attribute of the same name. -/
def AttrDict.setitem (d : AttrDict) (k : String) (v : JSON) : AttrDict :=
  ⟨setEntry d.entries k v, setEntry d.attrs k v⟩

/-- Concrete documents and transports used by the theorems below. -/

def t0 : Transport :=
  ⟨fun _ => .connFail, fun _ _ => .connFail⟩

def c1json : JSON :=
  .obj [("_embedded", .obj [("child", .obj [("name", .str "x")])])]

def c1doc : HALDoc :=
  .mk [("_embedded", .obj [("child", .obj [("name", .str "x")])])] [] []

def c4doc : HALDoc :=
  .mk [] [("r", .single ⟨[("href", .str "/x")]⟩)] []

def p1json : JSON :=
  .obj [("_links", .obj [("next", .obj [("href", .str "/p2")]),
                         ("items", .arr [.obj [("href", .str "/a")]])])]

def p2json : JSON :=
  .obj [("_links", .obj [("items", .arr [.obj [("href", .str "/b")]])])]

def t3 : Transport :=
  ⟨fun h => match h with
    | .str "/p1" => .ok p1json
    | .str "/p2" => .ok p2json
    | _ => .connFail,
   fun _ _ => .connFail⟩

def c3doc1 : HALDoc :=
  .mk [("_links", .obj [("next", .obj [("href", .str "/p2")]),
                        ("items", .arr [.obj [("href", .str "/a")]])])]
     [("next", .single ⟨[("href", .str "/p2")]⟩),
      ("items", .list [⟨[("href", .str "/a")]⟩])]
     []

def c3seq1 : RelList :=
  .mk [.link ⟨[("href", .str "/a")]⟩] (some (.str "/p2"))

def c3doc1r : HALDoc :=
  .mk [("_links", .obj [("next", .obj [("href", .str "/p2")]),
                        ("items", .arr [.obj [("href", .str "/a")]])])]
     [("next", .single ⟨[("href", .str "/p2")]⟩),
      ("items", .list [⟨[("href", .str "/a")]⟩])]
     [("items", .rlist c3seq1)]

def c3seq2 : RelList :=
  .mk [.link ⟨[("href", .str "/a")]⟩, .link ⟨[("href", .str "/b")]⟩] none

/-- Shared helper: updating a key and then looking one up in an
association list. -/
theorem lookupStr_setEntry {α : Type} (xs : List (String × α)) (k k' : String)
    (v : α) :
    lookupStr (setEntry xs k v) k' = if k = k' then some v else lookupStr xs k' := by
  induction xs with
  | nil =>
    by_cases h : k = k' <;> simp [setEntry, lookupStr, h]
  | cons hd tl ih =>
    obtain ⟨k0, v0⟩ := hd
    by_cases h0 : k0 = k
    · subst h0
      by_cases h1 : k0 = k' <;> simp [setEntry, lookupStr, h1]
    · by_cases h1 : k0 = k'
      · subst h1
        have hk : ¬ k = k0 := fun h => h0 h.symm
        simp [setEntry, lookupStr, h0, hk]
      · simp [setEntry, lookupStr, h0, h1, ih]

/-- Shared accessor fact for the embedded-cache update. -/
theorem embedded_setEmbedded (d : HALDoc) (k : String) (v : EmbVal) :
    (d.setEmbedded k v).embedded = setEntry d.embedded k v := by
  cases d
  rfl

/-- Shared case lemma: resolving a relation present in the embedded
cache returns it with no request. -/
theorem getItem_hit (t : Transport) (d : HALDoc) (key : String) (w : EmbVal)
    (he : lookupStr d.embedded key = some w) :
    RelResolver.getItem t d key = ((.ok w, d), []) := by
  unfold RelResolver.getItem
  rw [he]

/-- Shared case lemma: a relation absent from cache and links raises
KeyError. -/
theorem getItem_miss_none (t : Transport) (d : HALDoc) (key : String)
    (he : lookupStr d.embedded key = none)
    (hl : lookupStr d.links key = none) :
    RelResolver.getItem t d key = ((.error (.keyError key), d), []) := by
  unfold RelResolver.getItem
  rw [he, hl]

/-- Shared case lemma: a list-valued relation builds and caches a
RelList with no request. -/
theorem getItem_list (t : Transport) (d : HALDoc) (key : String)
    (ls : List HALLink) (nextl : Option JSON)
    (he : lookupStr d.embedded key = none)
    (hl : lookupStr d.links key = some (.list ls))
    (hn : itemsNextLink d.links key = .ok nextl) :
    RelResolver.getItem t d key =
      ((.ok (.rlist (.mk (ls.map RelItem.link) nextl)),
        d.setEmbedded key (.rlist (.mk (ls.map RelItem.link) nextl))), []) := by
  unfold RelResolver.getItem
  rw [he, hl, hn]

/-- Shared case lemma: a list-valued relation whose next-link reading
raises propagates that error with nothing cached. -/
theorem getItem_list_nextErr (t : Transport) (d : HALDoc) (key : String)
    (ls : List HALLink) (e : ChErr)
    (he : lookupStr d.embedded key = none)
    (hl : lookupStr d.links key = some (.list ls))
    (hn : itemsNextLink d.links key = .error e) :
    RelResolver.getItem t d key = ((.error e, d), []) := by
  unfold RelResolver.getItem
  rw [he, hl, hn]

/-- Shared case lemma: a failed fetch of a single-valued relation
propagates the error, caches nothing, and issued the one request. -/
theorem getItem_single_err (t : Transport) (d : HALDoc) (key : String)
    (l : HALLink) (e : ChErr)
    (he : lookupStr d.embedded key = none)
    (hl : lookupStr d.links key = some (.single l))
    (hg : (get t l.href).1 = .error e) :
    RelResolver.getItem t d key = ((.error e, d), [.get l.href]) := by
  have hg' : get t l.href = (.error e, [.get l.href]) := Prod.ext hg rfl
  unfold RelResolver.getItem
  rw [he, hl]
  simp only [hg']

/-- Shared case lemma: a successful fetch of a single-valued relation
caches and returns the resource, with the one request issued. -/
theorem getItem_single_ok (t : Transport) (d : HALDoc) (key : String)
    (l : HALLink) (res : HALDoc)
    (he : lookupStr d.embedded key = none)
    (hl : lookupStr d.links key = some (.single l))
    (hg : (get t l.href).1 = .ok res) :
    RelResolver.getItem t d key =
      ((.ok (.doc res), d.setEmbedded key (.doc res)), [.get l.href]) := by
  have hg' : get t l.href = (.ok res, [.get l.href]) := Prod.ext hg rfl
  unfold RelResolver.getItem
  rw [he, hl]
  simp only [hg']

/-- C1: the constructor leaves the embedded cache empty even when the
source document has a top-level embedded section, so resolving a
relation present only there raises KeyError instead of returning the
pre-cached value; the docstring of HALDoc promises the opposite. -/
theorem C1_embedded_section_ignored (t : Transport) :
    HALDoc.make c1json = .ok c1doc ∧
    c1doc.embedded = [] ∧
    RelResolver.getItem t c1doc "child" = ((.error (.keyError "child"), c1doc), []) :=
  ⟨rfl, rfl, rfl⟩

/-- C3: the two-page scenario: fetching p1 parses one items link and a
next link; resolving items yields a sequence of length one with a next
page; advancing fetches p2 and extends the sequence to length two with
no next page. -/
theorem C3_pagination_scenario :
    get t3 (.str "/p1") = (.ok c3doc1, [.get (.str "/p1")]) ∧
    RelResolver.getItem t3 c3doc1 "items" = ((.ok (.rlist c3seq1), c3doc1r), []) ∧
    c3seq1.length = 1 ∧
    c3seq1.hasNextPage = true ∧
    RelList.getNextPage t3 c3seq1 = ((.ok (), c3seq2), [.get (.str "/p2")]) ∧
    c3seq2.length = 2 ∧
    c3seq2.hasNextPage = false :=
  ⟨rfl, rfl, rfl, rfl, rfl, rfl, rfl⟩

/-- C2: a failed fetch during relation resolution, indexed access, or
page advance propagates the error and leaves every piece of cached
state exactly as it was: the embedded cache gains no entry, the items
slot keeps its unresolved link, and the next-page link is not modified,
so the identical call can be retried. -/
theorem C2_failed_fetch_changes_nothing :
    (∀ (t : Transport) (d : HALDoc) (key : String) (l : HALLink) (e : ChErr),
      lookupStr d.embedded key = none →
      lookupStr d.links key = some (.single l) →
      (get t l.href).1 = .error e →
      RelResolver.getItem t d key = ((.error e, d), [.get l.href])) ∧
    (∀ (t : Transport) (r : RelList) (i : Nat) (l : HALLink) (e : ChErr),
      r.rels[i]? = some (.link l) →
      (get t l.href).1 = .error e →
      RelList.getItem t r i = ((.error e, r), [.get l.href])) ∧
    (∀ (t : Transport) (r : RelList) (href : JSON) (e : ChErr),
      r.nextLink = some href →
      (get t href).1 = .error e →
      RelList.getNextPage t r = ((.error e, r), [.get href])) := by
  refine ⟨fun t d key l e h1 h2 h3 => getItem_single_err t d key l e h1 h2 h3,
          fun t r i l e h1 h2 => ?_, fun t r href e h1 h2 => ?_⟩
  · have hg' : get t l.href = (.error e, [.get l.href]) := Prod.ext h2 rfl
    unfold RelList.getItem
    rw [h1]
    simp only [hg']
  · have hg' : get t href = (.error e, [.get href]) := Prod.ext h2 rfl
    unfold RelList.getNextPage
    rw [h1]
    simp only [hg']

/-- C2 witness: a connection failure while resolving a single-valued
relation leaves the resource unchanged. -/
theorem C2_witness :
    RelResolver.getItem t0 c4doc "r" =
      ((.error .connectionError, c4doc), [.get (.str "/x")]) :=
  C2_failed_fetch_changes_nothing.1 t0 c4doc "r" ⟨[("href", .str "/x")]⟩
    .connectionError rfl rfl rfl

/-- C4 counterexample: when the first resolve fails, nothing is cached
and the second resolve fetches again, so two resolves of the same
relation on the same resource issue two network calls in total,
refuting the unconditional at-most-one bound. -/
theorem C4_counterexample :
    ¬ (((RelResolver.getItem t0 c4doc "r").2 ++
        (RelResolver.getItem t0 ((RelResolver.getItem t0 c4doc "r").1.2) "r").2).length ≤ 1) := by
  decide

/-- C4 amended: when the first resolve succeeds it issues at most one
request, and a second resolve of the same relation on the resulting
resource issues none and returns the identical cached value. -/
theorem C4_resolve_idempotent (t : Transport) (d : HALDoc) (key : String)
    (v : EmbVal) (h : (RelResolver.getItem t d key).1.1 = .ok v) :
    (RelResolver.getItem t d key).2.length ≤ 1 ∧
    RelResolver.getItem t ((RelResolver.getItem t d key).1.2) key =
      ((.ok v, (RelResolver.getItem t d key).1.2), []) := by
  cases he : lookupStr d.embedded key with
  | some w =>
    rw [getItem_hit t d key w he] at h ⊢
    simp only at h ⊢
    injection h with h'
    subst h'
    exact ⟨Nat.zero_le 1, getItem_hit t d key w he⟩
  | none =>
    cases hl : lookupStr d.links key with
    | none =>
      rw [getItem_miss_none t d key he hl] at h
      simp at h
    | some lv =>
      cases lv with
      | list ls =>
        cases hn : itemsNextLink d.links key with
        | error e =>
          rw [getItem_list_nextErr t d key ls e he hl hn] at h
          simp at h
        | ok nextl =>
          rw [getItem_list t d key ls nextl he hl hn] at h ⊢
          simp only at h ⊢
          rw [← h]
          refine ⟨Nat.zero_le 1, getItem_hit t _ key _ ?_⟩
          rw [embedded_setEmbedded, lookupStr_setEntry, if_pos rfl]
      | single l =>
        cases hg : (get t l.href).1 with
        | error e =>
          rw [getItem_single_err t d key l e he hl hg] at h
          simp at h
        | ok res =>
          rw [getItem_single_ok t d key l res he hl hg] at h ⊢
          simp only at h ⊢
          rw [← h]
          refine ⟨Nat.le_refl 1, getItem_hit t _ key _ ?_⟩
          rw [embedded_setEmbedded, lookupStr_setEntry, if_pos rfl]

/-- C4 amended witness: resolving a list-valued relation twice with the
second call a cache hit. -/
theorem C4_witness :
    (RelResolver.getItem t3 c3doc1 "items").2.length ≤ 1 ∧
    RelResolver.getItem t3 ((RelResolver.getItem t3 c3doc1 "items").1.2) "items" =
      ((.ok (.rlist c3seq1), (RelResolver.getItem t3 c3doc1 "items").1.2), []) :=
  C4_resolve_idempotent t3 c3doc1 "items" (.rlist c3seq1) rfl

/-- C5: a relation present in neither the embedded cache nor the links
table fails with KeyError (the UnknownRelation error of the spec,
distinct from every other exception class raised by the module), the
resource is unchanged and no request is issued. -/
theorem C5_unknown_relation (t : Transport) (d : HALDoc) (key : String)
    (h1 : lookupStr d.embedded key = none)
    (h2 : lookupStr d.links key = none) :
    RelResolver.getItem t d key = ((.error (.keyError key), d), []) := by
  unfold RelResolver.getItem
  rw [h1, h2]

/-- C5 witness. -/
theorem C5_witness :
    RelResolver.getItem t0 (.mk [] [] []) "missingRel" =
      ((.error (.keyError "missingRel"), .mk [] [] []), []) :=
  C5_unknown_relation t0 (.mk [] [] []) "missingRel" rfl rfl

/-- A JSON value that the dict constructor of AttrDict accepts. -/
def isObjJson : JSON → Bool
  | .obj _ => true
  | _ => false

/-- A JSON object lacking the href field. -/
def objLacksHref : JSON → Bool
  | .obj f => !(containsKey f "href")
  | _ => false

/-- A links entry of the shape HALLink construction accepts: a JSON
object, or an array of JSON objects. -/
def linkShaped : JSON → Bool
  | .obj _ => true
  | .arr xs => xs.all isObjJson
  | _ => false

/-- A links entry holding, directly or inside its array, a descriptor
without href. -/
def lacksHref : JSON → Bool
  | .obj f => !(containsKey f "href")
  | .arr xs => xs.any objLacksHref
  | _ => false

/-- Helper: a list of link objects containing one without href fails
element-wise construction with ValueError. -/
theorem parseLinkList_err (xs : List JSON)
    (hs : xs.all isObjJson = true) (hl : xs.any objLacksHref = true) :
    parseLinkList xs = .error .valueError := by
  induction xs with
  | nil => simp at hl
  | cons x rest ih =>
    simp only [List.all_cons, Bool.and_eq_true] at hs
    simp only [List.any_cons, Bool.or_eq_true] at hl
    obtain ⟨hx, hrest⟩ := hs
    cases x with
    | obj f =>
      cases hf : containsKey f "href" with
      | false =>
        have h1 : parseLinkItem (.obj f) = .error .valueError := by
          simp [parseLinkItem, HALLink.make, hf]
        unfold parseLinkList
        rw [h1]
      | true =>
        have h1 : parseLinkItem (.obj f) = .ok ⟨f⟩ := by
          simp [parseLinkItem, HALLink.make, hf]
        have hl' : rest.any objLacksHref = true := by
          rcases hl with hl | hl
          · simp [objLacksHref, hf] at hl
          · exact hl
        unfold parseLinkList
        rw [h1, ih hrest hl']
    | null => simp [isObjJson] at hx
    | bool b => simp [isObjJson] at hx
    | num n => simp [isObjJson] at hx
    | str s => simp [isObjJson] at hx
    | arr ys => simp [isObjJson] at hx

/-- Helper: a list of link objects all carrying href is parsed without
error. -/
theorem parseLinkList_ok (xs : List JSON)
    (hs : xs.all isObjJson = true) (hl : xs.any objLacksHref = false) :
    ∃ ls, parseLinkList xs = .ok ls := by
  induction xs with
  | nil => exact ⟨[], rfl⟩
  | cons x rest ih =>
    simp only [List.all_cons, Bool.and_eq_true] at hs
    simp only [List.any_cons, Bool.or_eq_false_iff] at hl
    obtain ⟨hx, hrest⟩ := hs
    obtain ⟨hx2, hrest2⟩ := hl
    cases x with
    | obj f =>
      have hf : containsKey f "href" = true := by
        cases hck : containsKey f "href" with
        | true => rfl
        | false => simp [objLacksHref, hck] at hx2
      obtain ⟨ls, hls⟩ := ih hrest hrest2
      refine ⟨⟨f⟩ :: ls, ?_⟩
      have h1 : parseLinkItem (.obj f) = .ok ⟨f⟩ := by
        simp [parseLinkItem, HALLink.make, hf]
      unfold parseLinkList
      rw [h1, hls]
    | null => simp [isObjJson] at hx
    | bool b => simp [isObjJson] at hx
    | num n => simp [isObjJson] at hx
    | str s => simp [isObjJson] at hx
    | arr ys => simp [isObjJson] at hx

/-- Helper: a link-shaped entry with a missing href parses to
ValueError. -/
theorem parseLinkVal_err (v : JSON)
    (hs : linkShaped v = true) (hl : lacksHref v = true) :
    parseLinkVal v = .error .valueError := by
  cases v with
  | obj f =>
    have hf : containsKey f "href" = false := by
      simp only [lacksHref, Bool.not_eq_true'] at hl
      exact hl
    simp [parseLinkVal, parseLinkItem, HALLink.make, hf, Except.map]
  | arr xs =>
    simp only [linkShaped] at hs
    simp only [lacksHref] at hl
    simp [parseLinkVal, parseLinkList_err xs hs hl, Except.map]
  | null => simp [linkShaped] at hs
  | bool b => simp [linkShaped] at hs
  | num n => simp [linkShaped] at hs
  | str s => simp [linkShaped] at hs

/-- Helper: a link-shaped entry with href everywhere parses without
error. -/
theorem parseLinkVal_ok (v : JSON)
    (hs : linkShaped v = true) (hl : lacksHref v = false) :
    ∃ lv, parseLinkVal v = .ok lv := by
  cases v with
  | obj f =>
    have hf : containsKey f "href" = true := by
      cases hck : containsKey f "href" with
      | true => rfl
      | false => simp [lacksHref, hck] at hl
    exact ⟨.single ⟨f⟩, by simp [parseLinkVal, parseLinkItem, HALLink.make, hf, Except.map]⟩
  | arr xs =>
    simp only [linkShaped] at hs
    simp only [lacksHref] at hl
    obtain ⟨ls, hls⟩ := parseLinkList_ok xs hs hl
    exact ⟨.list ls, by simp [parseLinkVal, hls, Except.map]⟩
  | null => simp [linkShaped] at hs
  | bool b => simp [linkShaped] at hs
  | num n => simp [linkShaped] at hs
  | str s => simp [linkShaped] at hs

/-- Helper: iterating a links object whose entries are all link-shaped
and one of which lacks href fails with ValueError. -/
theorem parseLinks_err (entries : List (String × JSON))
    (hs : entries.all (fun e => linkShaped e.2) = true)
    (hl : entries.any (fun e => lacksHref e.2) = true) :
    parseLinks entries = .error .valueError := by
  induction entries with
  | nil => simp at hl
  | cons hd rest ih =>
    obtain ⟨r, v⟩ := hd
    simp only [List.all_cons, Bool.and_eq_true] at hs
    simp only [List.any_cons, Bool.or_eq_true] at hl
    obtain ⟨hx, hrest⟩ := hs
    cases hlv : lacksHref v with
    | true =>
      unfold parseLinks
      rw [parseLinkVal_err v hx hlv]
    | false =>
      have hl' : rest.any (fun e => lacksHref e.2) = true := by
        rcases hl with hl | hl
        · rw [hlv] at hl
          exact absurd hl (by simp)
        · exact hl
      obtain ⟨lv, hok⟩ := parseLinkVal_ok v hx hlv
      unfold parseLinks
      rw [hok, ih hrest hl']

/-- C6: create on a resource with no createForm link fails with
AttributeError (the MissingCapability error of the spec, raised by the
attribute lookup on the links AttrDict), with no request issued and the
resource unchanged. -/
theorem C6_missing_capability (t : Transport) (d : HALDoc) (payload : JSON)
    (h : lookupStr d.links "createForm" = none) :
    HALDoc.create t d payload = ((.error .attributeError, d), []) := by
  unfold HALDoc.create
  rw [h]

/-- C6 witness. -/
theorem C6_witness :
    HALDoc.create t0 (.mk [] [] []) .null =
      ((.error .attributeError, .mk [] [] []), []) :=
  C6_missing_capability t0 (.mk [] [] []) .null rfl

/-- C7: a link descriptor without href fails with ValueError (the
MalformedLink error of the spec) at construction time, whatever other
fields it has; and constructing a resource whose links section consists
of link-shaped entries of which some descriptor, single-valued or
inside a list, lacks href fails with the same ValueError before the
resource (and hence any link) can be used. -/
theorem C7_malformed_link_fail_fast :
    (∀ fs : List (String × JSON), lookupStr fs "href" = none →
      HALLink.make fs = .error .valueError) ∧
    (∀ (fs linkfs : List (String × JSON)),
      lookupStr fs "_links" = some (.obj linkfs) →
      linkfs.all (fun e => linkShaped e.2) = true →
      linkfs.any (fun e => lacksHref e.2) = true →
      HALDoc.make (.obj fs) = .error .valueError) := by
  constructor
  · intro fs h
    simp [HALLink.make, containsKey, h]
  · intro fs linkfs hlk hs hl
    show (match lookupStr fs "_links" with
          | none => Except.ok (HALDoc.mk fs [] [])
          | some (.obj linkfs) =>
            match parseLinks linkfs with
            | .error e => .error e
            | .ok links => Except.ok (HALDoc.mk fs links [])
          | some _ => Except.error ChErr.attributeError) =
        Except.error ChErr.valueError
    rw [hlk]
    show (match parseLinks linkfs with
          | .error e => .error e
          | .ok links => Except.ok (HALDoc.mk fs links [])) =
        Except.error ChErr.valueError
    rw [parseLinks_err linkfs hs hl]

/-- C7 witness: the empty descriptor fails, directly and inside a
document's links section. -/
theorem C7_witness :
    HALLink.make [] = .error .valueError ∧
    HALDoc.make (.obj [("_links", .obj [("l", .obj [])])]) = .error .valueError :=
  ⟨C7_malformed_link_fail_fast.1 [] rfl,
   C7_malformed_link_fail_fast.2 [("_links", .obj [("l", .obj [])])]
     [("l", .obj [])] rfl (by decide) (by decide)⟩

/-- Shared case lemma: indexing past the known items raises
IndexError. -/
theorem rlGetItem_oob (t : Transport) (r : RelList) (i : Nat)
    (hi : r.rels[i]? = none) :
    RelList.getItem t r i = ((.error .indexError, r), []) := by
  unfold RelList.getItem
  rw [hi]

/-- Shared case lemma: an already-resolved slot is returned as is with
no request. -/
theorem rlGetItem_doc (t : Transport) (r : RelList) (i : Nat) (d : HALDoc)
    (hi : r.rels[i]? = some (.doc d)) :
    RelList.getItem t r i = ((.ok d, r), []) := by
  unfold RelList.getItem
  rw [hi]

/-- Shared case lemma: a link slot whose fetch fails leaves the list
untouched. -/
theorem rlGetItem_link_err (t : Transport) (r : RelList) (i : Nat)
    (l : HALLink) (e : ChErr)
    (hi : r.rels[i]? = some (.link l))
    (hg : (get t l.href).1 = .error e) :
    RelList.getItem t r i = ((.error e, r), [.get l.href]) := by
  have hg' : get t l.href = (.error e, [.get l.href]) := Prod.ext hg rfl
  unfold RelList.getItem
  rw [hi]
  simp only [hg']

/-- Shared case lemma: a link slot whose fetch succeeds is rewritten in
place with the resolved resource. -/
theorem rlGetItem_link_ok (t : Transport) (r : RelList) (i : Nat)
    (l : HALLink) (res : HALDoc)
    (hi : r.rels[i]? = some (.link l))
    (hg : (get t l.href).1 = .ok res) :
    RelList.getItem t r i =
      ((.ok res, .mk (r.rels.set i (.doc res)) r.nextLink), [.get l.href]) := by
  have hg' : get t l.href = (.ok res, [.get l.href]) := Prod.ext hg rfl
  unfold RelList.getItem
  rw [hi]
  simp only [hg']

/-- Shared case lemma: a stray string slot raises AttributeError with
no request. -/
theorem rlGetItem_pykey (t : Transport) (r : RelList) (i : Nat) (s : String)
    (hi : r.rels[i]? = some (.pykey s)) :
    RelList.getItem t r i = ((.error .attributeError, r), []) := by
  unfold RelList.getItem
  rw [hi]

/-- C8: indexed access below the known length never paginates: the
next-page link and the item count are unchanged whatever happens; a
resolved slot is returned with no request; a link slot issues exactly
the one request for its own href, is rewritten in place on success, and
a later access of the same index returns that resource with no
request. -/
theorem C8_random_access_never_paginates (t : Transport) (r : RelList)
    (i : Nat) (h : i < r.length) :
    ((RelList.getItem t r i).1.2).nextLink = r.nextLink ∧
    ((RelList.getItem t r i).1.2).length = r.length ∧
    (∀ d, r.rels[i]? = some (.doc d) →
      RelList.getItem t r i = ((.ok d, r), [])) ∧
    (∀ l, r.rels[i]? = some (.link l) →
      (RelList.getItem t r i).2 = [.get l.href] ∧
      ∀ res, (get t l.href).1 = .ok res →
        RelList.getItem t r i =
          ((.ok res, .mk (r.rels.set i (.doc res)) r.nextLink), [.get l.href]) ∧
        RelList.getItem t (.mk (r.rels.set i (.doc res)) r.nextLink) i =
          ((.ok res, .mk (r.rels.set i (.doc res)) r.nextLink), [])) := by
  have hset : ∀ res : HALDoc, (r.rels.set i (.doc res))[i]? = some (.doc res) :=
    fun res => List.getElem?_set_eq_of_lt _ h
  refine ⟨?_, ?_, fun d hd => rlGetItem_doc t r i d hd, fun l hl => ?_⟩
  · rcases hi : r.rels[i]? with _ | (l | d | s)
    · rw [rlGetItem_oob t r i hi]
    · rcases hg : (get t l.href).1 with e | res
      · rw [rlGetItem_link_err t r i l e hi hg]
      · rw [rlGetItem_link_ok t r i l res hi hg]
        exact rfl
    · rw [rlGetItem_doc t r i d hi]
    · rw [rlGetItem_pykey t r i s hi]
  · rcases hi : r.rels[i]? with _ | (l | d | s)
    · rw [rlGetItem_oob t r i hi]
    · rcases hg : (get t l.href).1 with e | res
      · rw [rlGetItem_link_err t r i l e hi hg]
      · rw [rlGetItem_link_ok t r i l res hi hg]
        simp [RelList.length, RelList.rels]
    · rw [rlGetItem_doc t r i d hi]
    · rw [rlGetItem_pykey t r i s hi]
  · constructor
    · rcases hg : (get t l.href).1 with e | res
      · rw [rlGetItem_link_err t r i l e hl hg]
      · rw [rlGetItem_link_ok t r i l res hl hg]
    · intro res hres
      exact ⟨rlGetItem_link_ok t r i l res hl hres,
             rlGetItem_doc t (.mk (r.rels.set i (.doc res)) r.nextLink) i res
               (hset res)⟩

/-- C8 witness: accessing the only (resolved) slot of a one-element
sequence with a pending next page. -/
theorem C8_witness :
    ((RelList.getItem t0 (RelList.mk [.doc (.mk [] [] [])] (some (.str "/p2"))) 0).1.2).nextLink =
      (RelList.mk [.doc (.mk [] [] [])] (some (.str "/p2"))).nextLink :=
  (C8_random_access_never_paginates t0
    (RelList.mk [.doc (.mk [] [] [])] (some (.str "/p2"))) 0 (by decide)).1

/-- C9: create on a collection whose items relation is already resolved
to a sequence of length K posts once, appends the decoded response to
the cached sequence (length K+1), and issues no GET for the items
relation. -/
theorem C9_create_appends (t : Transport) (d : HALDoc) (payload : JSON)
    (l : HALLink) (rL : RelList) (body : JSON) (newRes : HALDoc)
    (hcf : lookupStr d.links "createForm" = some (.single l))
    (hit : lookupStr d.embedded "items" = some (.rlist rL))
    (hpost : t.postResp l.href payload = .ok body)
    (hmake : HALDoc.make body = .ok newRes) :
    HALDoc.create t d payload =
      ((.ok newRes,
        d.setEmbedded "items" (.rlist (rL.append (.doc newRes)))),
       [.post l.href payload]) ∧
    (rL.append (.doc newRes)).length = rL.length + 1 := by
  have hc : RelResolver.contains d "items" = true := by
    simp [RelResolver.contains, containsKey, hit]
  have hres := getItem_hit t d "items" (.rlist rL) hit
  constructor
  · simp only [HALDoc.create, hcf, hpost, hmake, hc, if_true, hres]
  · simp [RelList.append, RelList.length, RelList.rels]

def c9t : Transport :=
  ⟨fun _ => .connFail,
   fun href _ => match href with
     | .str "/form" => .ok (.obj [("id", .num 7)])
     | _ => .connFail⟩

def c9new : HALDoc := .mk [("id", .num 7)] [] []

def c9doc : HALDoc :=
  .mk []
     [("createForm", .single ⟨[("href", .str "/form")]⟩), ("items", .list [])]
     [("items", .rlist (.mk [.doc (.mk [] [] [])] none))]

/-- C9 witness: a one-element resolved collection grows to two elements
through create, with only the POST issued. -/
theorem C9_witness :
    HALDoc.create c9t c9doc .null =
      ((.ok c9new,
        c9doc.setEmbedded "items"
          (.rlist ((RelList.mk [.doc (.mk [] [] [])] none).append (.doc c9new)))),
       [.post (.str "/form") .null]) ∧
    ((RelList.mk [.doc (.mk [] [] [])] none).append (.doc c9new)).length =
      (RelList.mk [.doc (.mk [] [] [])] none).length + 1 :=
  C9_create_appends c9t c9doc .null ⟨[("href", .str "/form")]⟩
    (.mk [.doc (.mk [] [] [])] none) (.obj [("id", .num 7)]) c9new
    rfl rfl rfl rfl

/-- C10 counterexample: a document with a top-level field named links
keeps it as a dict entry, but the constructor rebinds the links
attribute to the parsed link table, so dict lookup and attribute access
disagree on that key. -/
theorem C10_counterexample :
    HALDoc.make (.obj [("links", .num 5)]) = .ok (.mk [("links", .num 5)] [] []) ∧
    lookupStr (HALDoc.fields (.mk [("links", .num 5)] [] [])) "links" = some (.num 5) ∧
    HALDoc.getattr (.mk [("links", .num 5)] [] []) "links" ≠ some (.json (.num 5)) :=
  ⟨rfl, rfl, fun h => PyAttrVal.noConfusion (Option.some.inj h)⟩

/-- C10 amended: a plain AttrDict binds every dict key, set at
construction or by item assignment, to an attribute with the same
value; a resource keeps all raw JSON fields as dict entries, and every
key other than the reserved attribute names links, embedded and rels is
exposed as an attribute with the same value (those three are rebound by
the constructor and shadow same-named JSON fields as attributes). -/
theorem C10_dict_attr_agreement :
    (∀ (xs : List (String × JSON)) (k : String),
      lookupStr (AttrDict.init xs).entries k = lookupStr (AttrDict.init xs).attrs k) ∧
    (∀ (d : AttrDict) (k : String) (v : JSON),
      (∀ k', lookupStr d.entries k' = lookupStr d.attrs k') →
      ∀ k', lookupStr (d.setitem k v).entries k' = lookupStr (d.setitem k v).attrs k') ∧
    (∀ (fs : List (String × JSON)) (d : HALDoc),
      HALDoc.make (.obj fs) = .ok d →
      d.fields = fs ∧
      ∀ k, k ≠ "links" → k ≠ "embedded" → k ≠ "rels" →
        d.getattr k = (lookupStr d.fields k).map .json) := by
  refine ⟨fun xs k => rfl, fun d k v hag k' => ?_, fun fs d hmk => ?_⟩
  · simp only [AttrDict.setitem, lookupStr_setEntry, hag k']
  · rcases hL : lookupStr fs "_links" with _ | v
    · simp only [HALDoc.make, hL] at hmk
      injection hmk with h'
      subst h'
      refine ⟨rfl, fun k h1 h2 h3 => ?_⟩
      simp [HALDoc.getattr, h1, h2, h3]
    · cases v with
      | obj linkfs =>
        simp only [HALDoc.make, hL] at hmk
        rcases hP : parseLinks linkfs with e | links
        · rw [hP] at hmk
          simp at hmk
        · rw [hP] at hmk
          simp only at hmk
          injection hmk with h'
          subst h'
          refine ⟨rfl, fun k h1 h2 h3 => ?_⟩
          simp [HALDoc.getattr, h1, h2, h3]
      | null => simp only [HALDoc.make, hL] at hmk; simp at hmk
      | bool b => simp only [HALDoc.make, hL] at hmk; simp at hmk
      | num n => simp only [HALDoc.make, hL] at hmk; simp at hmk
      | str s => simp only [HALDoc.make, hL] at hmk; simp at hmk
      | arr ys => simp only [HALDoc.make, hL] at hmk; simp at hmk

/-- C10 witness: a non-reserved field of a constructed resource is
readable identically through the dict and the attribute. -/
theorem C10_witness :
    HALDoc.getattr (.mk [("a", .null)] [] []) "a" =
      (lookupStr (HALDoc.fields (.mk [("a", .null)] [] [])) "a").map PyAttrVal.json :=
  (C10_dict_attr_agreement.2.2 [("a", .null)] (.mk [("a", .null)] [] []) rfl).2
    "a" (by decide) (by decide) (by decide)

end Chainclient
